import Mathlib

/-!
Verification development for the crate-update notification bot
(src/src/main.rs).  The pipeline under study:

* diff_one       — turns the line diff of two consecutive index commits
                   into a (Crate, ActionKind) pair, a typed git2 error, or
                   a hard assertion failure (panic);
* pull           — walks the commit range HEAD~1..FETCH_HEAD, pairs
                   consecutive commits, sends derived events to the
                   notify loop and fast-forwards the local ref only after
                   each event has been acknowledged;
* notify / notify_inner — broadcast + per-subscriber fan-out with retry.

Everything below is a shallow embedding of that source file; external
collaborators (git tree diffing, JSON parsing from the krate module,
the Telegram transport, the subscriber database) are modelled at their
interfaces, as documented on the individual definitions.
-/

namespace CrateUpdBot

/-- Modelled from the spec: the record type of the krate module (the
module krate is not under src/).  An IndexRecord is a package-version
entry: name, version string, yanked flag, plus opaque metadata passed
through unchanged.  The source accesses exactly krate.id.name,
krate.id.vers and krate.yanked. -/
structure CrateId where
  name : String
  vers : String
  deriving DecidableEq, Repr

/-- Modelled from the spec: see CrateId.  The rest field stands for the
opaque metadata of the record, passed through unchanged. -/
structure Crate where
  id : CrateId
  yanked : Bool
  rest : String
  deriving DecidableEq, Repr

/-- The three lifecycle event kinds, mirroring enum ActionKind in main.rs. -/
inductive ActionKind where
  | NewVersion
  | Yanked
  | Unyanked
  deriving DecidableEq, Repr

/-- The reasons for which diff_one aborts the sync thread via assert! or
expect (these are panics in the source, not returned errors). -/
inductive ScanPanic where
  /-- assert!(prev.is_none(), "Expected number of deletions <= 1 ...") -/
  | tooManyDeletions
  /-- assert!(next.is_none(), "Expected number of additions = 1 ...") -/
  | tooManyAdditions
  /-- assert!(delta.nfiles() == 2 or delta.nfiles() == 1) -/
  | badNFiles
  /-- expect("cound't deserialize crate") on a line that does not parse -/
  | badRecord
  /-- the final assert!(next.is_some(), "Expected number of additions = 1 ...") -/
  | noAdditions
  deriving DecidableEq, Repr

/-- The observable outcome of diff_one.  ok/err mirror the Rust
Result<(Crate, ActionKind), git2::Error>; panic records an assertion
failure (which in Rust unwinds and kills the git2 thread).  The commit
pair is carried in the panic payload because the assert messages format
the two commit ids. -/
inductive DiffOutcome where
  | ok (krate : Crate) (action : ActionKind)
  | err (msg : String)
  | panic (reason : ScanPanic) (commits : Nat × Nat)
  deriving DecidableEq, Repr

def DiffOutcome.isOk : DiffOutcome → Bool
  | .ok _ _ => true
  | _ => false

/-- True exactly for the typed, recoverable error (the Err branch of the
Rust Result); panics are not typed errors. -/
def DiffOutcome.isTypedErr : DiffOutcome → Bool
  | .err _ => true
  | _ => false

/-- Split a character list at every pipe character; mirrors
String.splitOn with a one-character separator. -/
def splitPipe : List Char → List (List Char)
  | [] => [[]]
  | c :: rest =>
    let r := splitPipe rest
    if c = '|' then [] :: r
    else
      match r with
      | [] => [[c]]
      | f :: fs => (c :: f) :: fs

/-- Modelled from the spec: the JSON parsing of one index line into an
IndexRecord (serde_json::from_str::<Crate>; the Crate schema lives in
the krate module, which is not under src/).  The JSON encoding is
abstracted to a four-field pipe-delimited encoding
name|vers|yanked|rest; any line not of that shape fails to parse
(returns none), which is the MalformedRecord situation. -/
def parseCrate (s : String) : Option Crate :=
  match splitPipe s.data with
  | [n, v, y, m] =>
    if y = "true".data then some ⟨⟨String.mk n, String.mk v⟩, true, String.mk m⟩
    else if y = "false".data then some ⟨⟨String.mk n, String.mk v⟩, false, String.mk m⟩
    else none
  | _ => none

/-- The file delta kinds of git2::Delta that the source distinguishes:
Modified and Added are analyzed, every other kind falls into the
warn-and-ignore arm. -/
inductive DeltaStatus where
  | added
  | modified
  | deleted
  | renamed
  | other
  deriving DecidableEq, Repr

/-- One diff line as handed to the line callback of Diff::foreach:
its origin character ('+', '-', context, ...) and its text content. -/
structure DiffLine where
  origin : Char
  content : String
  deriving DecidableEq, Repr

/-- One file delta of the diff, with the per-delta data the source
reads: status, nfiles, and its lines in callback order. -/
structure DiffDelta where
  status : DeltaStatus
  nfiles : Nat
  lines : List DiffLine
  deriving DecidableEq, Repr

/-- The scanning state of diff_one's foreach callback: the parsed
removed record (prev) and added record (next) seen so far. -/
abbrev ScanState := Option Crate × Option Crate

/-- One execution of the line callback body of diff_one.  Mirrors the
source exactly: match on delta.status first (non add/modify kinds are
warned about and ignored), then the nfiles assert, then the match on
line.origin with the prev/next asserts and the record parsing. -/
def scanLine (d : DiffDelta) (st : ScanState) (l : DiffLine) : Except ScanPanic ScanState :=
  match d.status with
  | .modified | .added =>
    if d.nfiles = 2 ∨ d.nfiles = 1 then
      if l.origin = '-' then
        match st.1 with
        | some _ => .error .tooManyDeletions
        | none =>
          match parseCrate l.content with
          | none => .error .badRecord
          | some k => .ok (some k, st.2)
      else if l.origin = '+' then
        match st.2 with
        | some _ => .error .tooManyAdditions
        | none =>
          match parseCrate l.content with
          | none => .error .badRecord
          | some k => .ok (st.1, some k)
      else .ok st
    else .error .badNFiles
  | _ => .ok st

/-- Run the line callback over the lines of one delta in order. -/
def scanLines (d : DiffDelta) : ScanState → List DiffLine → Except ScanPanic ScanState
  | st, [] => .ok st
  | st, l :: rest =>
    match scanLine d st l with
    | .error p => .error p
    | .ok st' => scanLines d st' rest

/-- Run the foreach over all deltas of the diff in order, threading the
(prev, next) scanning state; a panic aborts immediately. -/
def scanDiffFrom : ScanState → List DiffDelta → Except ScanPanic ScanState
  | st, [] => .ok st
  | st, d :: rest =>
    match scanLines d st d.lines with
    | .error p => .error p
    | .ok st' => scanDiffFrom st' rest

def scanDiff (diff : List DiffDelta) : Except ScanPanic ScanState :=
  scanDiffFrom (none, none) diff

/-- The final classification match of diff_one, on
(prev.as_ref().map(|c| c.yanked), next.yanked). -/
def classify (prev : Option Crate) (next : Crate) : DiffOutcome :=
  match prev.map Crate.yanked, next.yanked with
  | none, false => .ok next .NewVersion
  | some false, true => .ok next .Yanked
  | some true, false => .ok next .Unyanked
  | _, _ => .err "Unexpected diff"

/-- Shallow embedding of fn diff_one: scan all diff lines (panicking on
shape violations exactly where the source asserts), then panic if no
added line was seen, else classify by the yanked-flag table.  Commits
are the pair of commit identities used only in the assert messages. -/
def diff_one (diff : List DiffDelta) (commits : Nat × Nat) : DiffOutcome :=
  match scanDiff diff with
  | .error p => .panic p commits
  | .ok (_, none) => .panic .noAdditions commits
  | .ok (prev, some next) => classify prev next

/-- A well-formed single-file diff with an optional removed line and one
added line, as produced by a one-record index change. -/
def mkLines (removed : Option String) (added : String) : List DiffLine :=
  (match removed with
   | some s => [⟨'-', s⟩]
   | none => []) ++ [⟨'+', added⟩]

def mkDiff (removed : Option String) (added : String) : List DiffDelta :=
  [⟨.modified, 2, mkLines removed added⟩]

/-- One commit of the revwalk output, with the fields pull reads: the
author name of the commit (none models an invalid-utf-8 name, which
compares unequal to Some("bors")) and the tree diff against its
predecessor in the walk (diff_tree_to_tree is external git; the walk is
linear for the append-only index, so the diff of the pair (prev, next)
is attached to next). -/
structure CommitInfo where
  author : Option String
  diff : List DiffDelta
  deriving DecidableEq, Repr

/-- Slice::array_windows::<[_, 2]> over the collected walk commits:
consecutive pairs in walk order.  The walk range HEAD~1..FETCH_HEAD
puts the currently checked-out commit first, so the first pair is
(checked-out commit, first new commit). -/
def commitWindows (commits : List CommitInfo) : List (CommitInfo × CommitInfo) :=
  commits.zip commits.tail

/-- Result of one synchronization cycle of pull, sequential view: final
cursor position, the events derived in order, and the diff_one outcome
that aborted the cycle, if any (an err propagates through the question
mark operator and pull returns Err; a panic unwinds the git2 thread;
either way the loop body stops before the fast_forward of that pair). -/
structure CycleResult where
  cursor : Nat
  events : List (Crate × ActionKind)
  aborted : Option DiffOutcome
  deriving DecidableEq, Repr

/-- Sequential model of the for-loop of pull over the commit windows.
Commit positions number the walk output from 0 (the checked-out
commit), so the pair at position pos is (commit pos, commit pos + 1)
and fast-forwarding to its next commit sets the cursor to pos + 1.
A next commit not authored by bors is skipped (continue) without
touching the cursor; an Ok extraction hands the event off, waits for
the ack and then fast-forwards; an err or panic outcome aborts the
cycle with the cursor unchanged. -/
def runPairs : Nat → Nat → List (CommitInfo × CommitInfo) → CycleResult
  | cursor, _, [] => ⟨cursor, [], none⟩
  | cursor, pos, (_, next) :: rest =>
    if next.author = some "bors" then
      match diff_one next.diff (pos, pos + 1) with
      | .ok k a =>
        let r := runPairs (pos + 1) (pos + 1) rest
        ⟨r.cursor, (k, a) :: r.events, r.aborted⟩
      | o => ⟨cursor, [], some o⟩
    else runPairs cursor (pos + 1) rest

/-- One full cycle of pull on a walk output (checked-out commit first). -/
def pullCycle (commits : List CommitInfo) : CycleResult :=
  runPairs 0 0 (commitWindows commits)

/-- Per-pair input of the concurrent model of pull: the author of the
next commit of the pair and the tree diff of the pair. -/
structure PairInfo where
  author : Option String
  diff : List DiffDelta

/-- Control point of the git2 thread: at the top of the loop body for
the current pair, blocked on the ack busy-wait, or out of the loop
(range exhausted or cycle aborted). -/
inductive PPhase where
  | ready
  | waiting
  | stopped
  deriving DecidableEq, Repr

/-- Control point of the notify loop: between recv calls, or running
notify for the received event (holding its _unblock sender). -/
inductive CPhase where
  | idle
  | processing (j : Nat)
  deriving DecidableEq, Repr

/-- Joint state of the git2 thread (producer) and the notify loop
(consumer) of main, connected by the bounded mpsc channel of capacity
2.  Events are identified by the index of the pair they were derived
from; pair j's next commit sits at walk position j + 1. -/
structure St where
  i : Nat
  cursor : Nat
  phase : PPhase
  chan : List Nat
  cphase : CPhase
  produced : List Nat
  consumed : List Nat
  acked : List Nat
  deriving DecidableEq, Repr

def initSt : St := ⟨0, 0, .ready, [], .idle, [], [], []⟩

/-- The event currently being processed by the notify loop, as a list. -/
def procList : CPhase → List Nat
  | .idle => []
  | .processing j => [j]

/-- Position bound set by the last acknowledged event: the walk
position of its pair's next commit, or 0 when nothing was acknowledged
yet. -/
def ackedBound (acked : List Nat) : Nat :=
  match acked.getLast? with
  | none => 0
  | some j => j + 1

/-- Interleaving semantics of the pull thread and the notify loop.
Producer steps: skip (non-bors author: continue without fast_forward),
send (blocking_send of the derived event with a fresh oneshot sender,
then busy-wait on try_recv), fail (diff_one returned err or panicked:
the cycle stops with the cursor unchanged), advance (the busy-wait
observed the dropped oneshot sender: fast_forward to the pair's next
commit and move to the next pair), finish (range exhausted).  Consumer
steps: recv (rx.recv() yields the next queued event), release (notify
returned and the _unblock sender of that event is dropped). -/
inductive Step (P : List PairInfo) : St → St → Prop where
  | skip : ∀ (s : St) (hi : s.i < P.length), s.phase = .ready →
      (P.get ⟨s.i, hi⟩).author ≠ some "bors" →
      Step P s { s with i := s.i + 1 }
  | send : ∀ (s : St) (hi : s.i < P.length), s.phase = .ready →
      (P.get ⟨s.i, hi⟩).author = some "bors" →
      (diff_one (P.get ⟨s.i, hi⟩).diff (s.i, s.i + 1)).isOk = true →
      s.chan.length < 2 →
      Step P s { s with phase := .waiting, chan := s.chan ++ [s.i],
                        produced := s.produced ++ [s.i] }
  | fail : ∀ (s : St) (hi : s.i < P.length), s.phase = .ready →
      (P.get ⟨s.i, hi⟩).author = some "bors" →
      (diff_one (P.get ⟨s.i, hi⟩).diff (s.i, s.i + 1)).isOk = false →
      Step P s { s with phase := .stopped }
  | finish : ∀ (s : St), s.phase = .ready → P.length ≤ s.i →
      Step P s { s with phase := .stopped }
  | advance : ∀ (s : St), s.phase = .waiting → s.i ∈ s.acked →
      Step P s { s with phase := .ready, cursor := s.i + 1, i := s.i + 1 }
  | recv : ∀ (s : St) (j : Nat) (rest : List Nat), s.cphase = .idle →
      s.chan = j :: rest →
      Step P s { s with chan := rest, cphase := .processing j,
                        consumed := s.consumed ++ [j] }
  | release : ∀ (s : St) (j : Nat), s.cphase = .processing j →
      Step P s { s with cphase := .idle, acked := s.acked ++ [j] }

/-- States reachable from the initial state under any interleaving. -/
abbrev Reachable (P : List PairInfo) (s : St) : Prop :=
  Relation.ReflTransGen (Step P) initSt s

/-- The inductive invariant of the pull/notify system. -/
def Inv (s : St) : Prop :=
  s.cursor ≤ ackedBound s.acked ∧
  s.produced = s.consumed ++ s.chan ∧
  s.consumed = s.acked ++ procList s.cphase ∧
  List.Pairwise (· < ·) s.produced ∧
  (s.phase = .waiting → s.produced.getLast? = some s.i ∧ ∀ j ∈ s.produced, j ≤ s.i) ∧
  (s.phase ≠ .waiting → ∀ j ∈ s.produced, j < s.i)

/-- One action of a delivery flow of notify, in flow order: a send to
one chat carrying the disable_notification flag (the quiet argument of
notify_inner), or the broadcast_delay_millis sleep. -/
inductive SendAction where
  | send (chatId : Int) (quiet : Bool)
  | sleep
  deriving DecidableEq, Repr

/-- The banned-crate set of the configuration (cfg.ban.crates). -/
structure BanList where
  crates : List String
  deriving DecidableEq, Repr

/-- The configuration fields notify reads: the optional broadcast
channel id and the ban list.  Delays and tokens are opaque to the
model. -/
structure Config where
  channel : Option Int
  ban : BanList
  deriving DecidableEq, Repr

/-- The channel_fut flow of notify: if a broadcast channel is
configured and the crate is not banned, one send to it with
quiet = true; otherwise nothing. -/
def channelTrace (cfg : Config) (krate : Crate) : List SendAction :=
  match cfg.channel with
  | some chatId =>
    if krate.id.name ∈ cfg.ban.crates then [] else [.send chatId true]
  | none => []

/-- The subscriber lookup as used by users_fut: a database error is
logged and degrades to the empty subscriber list. -/
def resolveSubs (r : Except String (List Int)) : List Int :=
  match r with
  | .ok l => l
  | .error _ => []

/-- The for-loop of users_fut: for every subscriber in lookup order,
one send with quiet = false followed by the broadcast_delay_millis
sleep. -/
def usersSends : List Int → List SendAction
  | [] => []
  | chatId :: rest => .send chatId false :: .sleep :: usersSends rest

def usersTrace (r : Except String (List Int)) : List SendAction :=
  usersSends (resolveSubs r)

/-- The two concurrently joined flows of notify for one event, as their
pair of per-flow traces (broadcast flow, fan-out flow). -/
def notifyTraces (cfg : Config) (krate : Crate) (r : Except String (List Int)) :
    List SendAction × List SendAction :=
  (channelTrace cfg krate, usersTrace r)

def countSleeps : List SendAction → Nat
  | [] => 0
  | .sleep :: rest => countSleeps rest + 1
  | _ :: rest => countSleeps rest

/-- Modelled from the spec: util::tryn (the util module is not under
src/) retries the underlying send up to the given number of attempts
with a fixed inter-attempt delay, returning the first success, or the
last error if all attempts fail.  The attempt function is indexed by
attempt number; the second argument counts the attempts left after the
current one. -/
def trynAux {E A : Type} (f : Nat → Except E A) : Nat → Nat → Except E A
  | i, 0 => f i
  | i, remaining + 1 =>
    match f i with
    | .ok a => .ok a
    | .error _ => trynAux f (i + 1) remaining

def tryn {E A : Type} (n : Nat) (f : Nat → Except E A) : Except E A :=
  trynAux f 0 (n - 1)

/-- Shallow embedding of notify_inner: run tryn 5 on the transport
attempt; success is dropped, and a final failure is logged — the value
is the logged error line, and in either case nothing propagates to the
caller. -/
def notify_inner (attempt : Nat → Except String Unit) : Option String :=
  match tryn 5 attempt with
  | .ok _ => none
  | .error e => some e

/-- Concrete material used by witnesses and counterexamples. -/
def exDiff : List DiffDelta := mkDiff none "a|1|false|"

def exCrate : Crate := ⟨⟨"a", "1"⟩, false, ""⟩

def twoRemovalDiff : List DiffDelta :=
  [⟨.modified, 2, [⟨'-', "a|1|false|"⟩, ⟨'-', "a|1|false|"⟩]⟩]

def exPairs : List PairInfo := [⟨some "bors", exDiff⟩]

def exS1 : St := ⟨0, 0, .waiting, [0], .idle, [0], [], []⟩

def exS2 : St := ⟨0, 0, .waiting, [], .processing 0, [0], [0], []⟩

def exS3 : St := ⟨0, 0, .waiting, [], .idle, [0], [0], [0]⟩

def exS4 : St := ⟨1, 1, .ready, [], .idle, [0], [0], [0]⟩

def exBors : CommitInfo := ⟨some "bors", exDiff⟩

def exAlice : CommitInfo := ⟨some "alice", []⟩

def cfgEx : Config := ⟨some 1, ⟨[]⟩⟩

def cfgBan : Config := ⟨some 1, ⟨["foo"]⟩⟩

def fooCrate : Crate := ⟨⟨"foo", "1"⟩, false, ""⟩

def subsEx : Except String (List Int) := .ok [2]

def fAllW : Nat → Except String Unit := fun _ => .error "e"

def fOkW : Nat → Except String Unit := fun k => if k = 1 then .ok () else .error "e"

/-! Helper lemmas. -/

theorem lastConcat {α : Type} (a : α) (l : List α) : (l ++ [a]).getLast? = some a :=
  List.getLast?_concat l

theorem lastMem {α : Type} : ∀ (l : List α) (a : α), l.getLast? = some a → a ∈ l
  | [], a, h => by rw [List.getLast?_nil] at h; exact Option.noConfusion h
  | [b], a, h => by
    rw [List.getLast?_singleton] at h
    have hba : b = a := Option.some.inj h
    subst hba
    exact List.mem_singleton_self b
  | b :: c :: l, a, h => by
    rw [List.getLast?_cons_cons] at h
    exact List.mem_cons_of_mem b (lastMem (c :: l) a h)

theorem mapSnd_zip_shift {α : Type} : ∀ (l : List α) (c : α),
    ((c :: l).zip l).map Prod.snd = l
  | [], _ => rfl
  | a :: l, c => by
    rw [List.zip_cons_cons, List.map_cons, mapSnd_zip_shift l a]

theorem usersSends_mem : ∀ (l : List Int) (u : Int), u ∈ l →
    SendAction.send u false ∈ usersSends l := by
  intro l
  induction l with
  | nil => intro u h; cases h
  | cons a rest ih =>
    intro u h
    rcases List.mem_cons.mp h with h | h
    · subst h; exact List.mem_cons_self _ _
    · exact List.mem_cons_of_mem _ (List.mem_cons_of_mem _ (ih u h))

theorem usersSends_quiet_false : ∀ (l : List Int) (chatId : Int) (q : Bool),
    SendAction.send chatId q ∈ usersSends l → q = false := by
  intro l
  induction l with
  | nil => intro chatId q h; cases h
  | cons a rest ih =>
    intro chatId q h
    rcases List.mem_cons.mp h with h | h
    · cases h; rfl
    · rcases List.mem_cons.mp h with h | h
      · cases h
      · exact ih chatId q h

theorem countSleeps_usersSends : ∀ (l : List Int),
    countSleeps (usersSends l) = l.length
  | [] => rfl
  | a :: rest => by
    simp only [usersSends, countSleeps, List.length_cons]
    rw [countSleeps_usersSends rest]

theorem usersSends_last : ∀ (l : List Int), l ≠ [] →
    (usersSends l).getLast? = some SendAction.sleep
  | [], h => absurd rfl h
  | [a], _ => rfl
  | a :: b :: r, _ => by
    have ih := usersSends_last (b :: r) (by simp)
    simp only [usersSends] at ih ⊢
    rw [List.getLast?_cons_cons, List.getLast?_cons_cons]
    exact ih

theorem trynAux_congr {E A : Type} (f g : Nat → Except E A) :
    ∀ (remaining i : Nat), (∀ k, i ≤ k → k ≤ i + remaining → f k = g k) →
      trynAux f i remaining = trynAux g i remaining
  | 0, i, h => by simp only [trynAux]; exact h i le_rfl (by omega)
  | remaining + 1, i, h => by
    simp only [trynAux]
    rw [← h i le_rfl (by omega)]
    cases f i with
    | ok a => rfl
    | error e => exact trynAux_congr f g remaining (i + 1) fun k hk1 hk2 => h k (by omega) (by omega)

/-! Claim theorems. -/

/-- C2: diff_one classifies every well-shaped commit pair exactly by
the table over (presence of a removed record and its yanked flag, the
added record's yanked flag): no removal and yanked = false gives
NewVersion, (false, true) gives Yanked, (true, false) gives Unyanked,
and every other combination — including no removal with yanked = true
— returns the "Unexpected diff" error and no event. -/
theorem diff_one_classification_table (c : Nat × Nat) (radd : String) (n : Crate)
    (hadd : parseCrate radd = some n) :
    (diff_one (mkDiff none radd) c =
      if n.yanked then DiffOutcome.err "Unexpected diff"
      else DiffOutcome.ok n ActionKind.NewVersion) ∧
    ∀ (rrem : String) (p : Crate), parseCrate rrem = some p →
      diff_one (mkDiff (some rrem) radd) c =
        match p.yanked, n.yanked with
        | false, true => DiffOutcome.ok n ActionKind.Yanked
        | true, false => DiffOutcome.ok n ActionKind.Unyanked
        | _, _ => DiffOutcome.err "Unexpected diff" := by
  constructor
  · cases hn : n.yanked <;>
      simp [diff_one, scanDiff, scanDiffFrom, scanLines, scanLine, mkDiff, mkLines,
        hadd, classify, hn]
  · intro rrem p hrem
    cases hp : p.yanked <;> cases hn : n.yanked <;>
      simp [diff_one, scanDiff, scanDiffFrom, scanLines, scanLine, mkDiff, mkLines,
        hadd, hrem, classify, hp, hn]

/-- C2 witness: the table evaluated on a concrete unyanked added
record. -/
theorem diff_one_classification_table_witness :
    (diff_one (mkDiff none "a|1|false|") (0, 1) =
      if exCrate.yanked then DiffOutcome.err "Unexpected diff"
      else DiffOutcome.ok exCrate ActionKind.NewVersion) ∧
    ∀ (rrem : String) (p : Crate), parseCrate rrem = some p →
      diff_one (mkDiff (some rrem) "a|1|false|") (0, 1) =
        match p.yanked, exCrate.yanked with
        | false, true => DiffOutcome.ok exCrate ActionKind.Yanked
        | true, false => DiffOutcome.ok exCrate ActionKind.Unyanked
        | _, _ => DiffOutcome.err "Unexpected diff" :=
  diff_one_classification_table (0, 1) "a|1|false|" exCrate (by decide)

/-- C3 counterexample: on a diff with two removed lines the extraction
outcome is an assertion failure (a panic that unwinds the git2
thread), not the typed, recoverable error value the claim requires. -/
theorem shape_violation_panics_not_typed_error :
    diff_one twoRemovalDiff (0, 1) = DiffOutcome.panic ScanPanic.tooManyDeletions (0, 1) ∧
    (diff_one twoRemovalDiff (0, 1)).isTypedErr = false := by
  exact ⟨by decide, by decide⟩

/-- C3 (amended): a diff with more than one removed line, more than one
added line, zero added lines, or an unparseable record makes diff_one
abort via assert!/expect (a panic, fatal to the whole sync thread, not
a typed recoverable error); any non-Ok outcome — including the typed
"Unexpected diff" error — stops the current cycle with the cursor
unmodified and no event emitted. -/
theorem shape_violations_abort (c : Nat × Nat) (good bad : String) (k : Crate)
    (hg : parseCrate good = some k) (hb : parseCrate bad = none) :
    diff_one [⟨.modified, 2, [⟨'-', good⟩, ⟨'-', good⟩]⟩] c =
      DiffOutcome.panic ScanPanic.tooManyDeletions c ∧
    diff_one [⟨.modified, 2, [⟨'+', good⟩, ⟨'+', good⟩]⟩] c =
      DiffOutcome.panic ScanPanic.tooManyAdditions c ∧
    diff_one [⟨.modified, 2, [⟨'-', good⟩]⟩] c =
      DiffOutcome.panic ScanPanic.noAdditions c ∧
    diff_one [⟨.modified, 2, [⟨'+', bad⟩]⟩] c =
      DiffOutcome.panic ScanPanic.badRecord c ∧
    (∀ (cursor pos : Nat) (prev next : CommitInfo)
       (rest : List (CommitInfo × CommitInfo)) (o : DiffOutcome),
      next.author = some "bors" → diff_one next.diff (pos, pos + 1) = o →
      o.isOk = false →
      runPairs cursor pos ((prev, next) :: rest) = ⟨cursor, [], some o⟩) := by
  refine ⟨?_, ?_, ?_, ?_, ?_⟩
  · simp [diff_one, scanDiff, scanDiffFrom, scanLines, scanLine, hg]
  · simp [diff_one, scanDiff, scanDiffFrom, scanLines, scanLine, hg]
  · simp [diff_one, scanDiff, scanDiffFrom, scanLines, scanLine, hg]
  · simp [diff_one, scanDiff, scanDiffFrom, scanLines, scanLine, hb]
  · intro cursor pos prev next rest o hbors hdiff hnok
    cases o with
    | ok k a => simp [DiffOutcome.isOk] at hnok
    | err m => simp [runPairs, hbors, hdiff]
    | panic r cs => simp [runPairs, hbors, hdiff]

/-- C3 witness: the amended claim evaluated on concrete good and bad
record lines. -/
theorem shape_violations_abort_witness :
    diff_one [⟨.modified, 2, [⟨'-', "a|1|false|"⟩, ⟨'-', "a|1|false|"⟩]⟩] (0, 1) =
      DiffOutcome.panic ScanPanic.tooManyDeletions (0, 1) ∧
    diff_one [⟨.modified, 2, [⟨'+', "a|1|false|"⟩, ⟨'+', "a|1|false|"⟩]⟩] (0, 1) =
      DiffOutcome.panic ScanPanic.tooManyAdditions (0, 1) ∧
    diff_one [⟨.modified, 2, [⟨'-', "a|1|false|"⟩]⟩] (0, 1) =
      DiffOutcome.panic ScanPanic.noAdditions (0, 1) ∧
    diff_one [⟨.modified, 2, [⟨'+', "junk"⟩]⟩] (0, 1) =
      DiffOutcome.panic ScanPanic.badRecord (0, 1) ∧
    (∀ (cursor pos : Nat) (prev next : CommitInfo)
       (rest : List (CommitInfo × CommitInfo)) (o : DiffOutcome),
      next.author = some "bors" → diff_one next.diff (pos, pos + 1) = o →
      o.isOk = false →
      runPairs cursor pos ((prev, next) :: rest) = ⟨cursor, [], some o⟩) :=
  shape_violations_abort (0, 1) "a|1|false|" "junk" exCrate (by decide) (by decide)

/-- C4 counterexample: a cycle whose single pair has a non-bors
authored next commit ends with the cursor still at position 0 and no
event — the continue in pull skips the fast_forward — whereas the
claim requires the cursor advanced to position 1. -/
theorem skipped_pair_cursor_not_advanced :
    runPairs 0 0 (commitWindows [exBors, exAlice]) =
      ⟨0, [], none⟩ ∧
    (runPairs 0 0 (commitWindows [exBors, exAlice])).cursor ≠ 1 := by
  exact ⟨by decide, by decide⟩

/-- C4 (amended): a pair whose next commit is not authored by bors is
skipped with a warning and no event, and the cursor is NOT advanced at
that pair: processing the pair is identical to processing the
remaining pairs with only the position counter moved, so the cursor
changes only when a later pair yields an event that completes. -/
theorem skip_leaves_cursor_unchanged (cursor pos : Nat) (prev next : CommitInfo)
    (rest : List (CommitInfo × CommitInfo)) (h : next.author ≠ some "bors") :
    runPairs cursor pos ((prev, next) :: rest) = runPairs cursor (pos + 1) rest := by
  simp [runPairs, h]

/-- C4 witness: the amended claim at the concrete non-bors commit. -/
theorem skip_leaves_cursor_unchanged_witness :
    runPairs 0 0 [(exBors, exAlice)] = runPairs 0 1 [] :=
  skip_leaves_cursor_unchanged 0 0 exBors exAlice [] (by decide)

/-- C9: extraction is a pure, deterministic function of the commit
pair: two runs on identical inputs give identical outcomes, and an Ok
outcome (the event with its record) does not depend on the commit
identities at all — they surface only inside panic payloads. -/
theorem diff_one_deterministic (d : List DiffDelta) (c c' : Nat × Nat)
    (r₁ r₂ : DiffOutcome) (h₁ : r₁ = diff_one d c) (h₂ : r₂ = diff_one d c) :
    r₁ = r₂ ∧
    ∀ (k : Crate) (a : ActionKind), diff_one d c = DiffOutcome.ok k a →
      diff_one d c' = DiffOutcome.ok k a := by
  refine ⟨h₁.trans h₂.symm, ?_⟩
  intro k a h
  unfold diff_one at h ⊢
  cases hs : scanDiff d with
  | error p => rw [hs] at h; exact DiffOutcome.noConfusion h
  | ok st =>
    obtain ⟨pr, nx⟩ := st
    cases nx with
    | none => rw [hs] at h; exact DiffOutcome.noConfusion h
    | some n => rw [hs] at h; exact h

/-- C9 witness: determinism evaluated on the concrete benign diff and
two different commit pairs. -/
theorem diff_one_deterministic_witness :
    DiffOutcome.ok exCrate ActionKind.NewVersion = DiffOutcome.ok exCrate ActionKind.NewVersion ∧
    ∀ (k : Crate) (a : ActionKind), diff_one exDiff (0, 1) = DiffOutcome.ok k a →
      diff_one exDiff (5, 6) = DiffOutcome.ok k a :=
  diff_one_deterministic exDiff (0, 1) (5, 6)
    (DiffOutcome.ok exCrate ActionKind.NewVersion)
    (DiffOutcome.ok exCrate ActionKind.NewVersion) (by decide) (by decide)

/-- C5 counterexample: with a configured broadcast channel, an
unbanned crate and one subscriber, the broadcast send carries
quiet = true (notifications suppressed) and the subscriber send
quiet = false (notifications enabled) — the opposite of the claimed
polarity. -/
theorem broadcast_quiet_fanout_audible :
    notifyTraces cfgEx exCrate subsEx =
      ([SendAction.send 1 true], [SendAction.send 2 false, SendAction.sleep]) ∧
    SendAction.send 1 false ∉ (notifyTraces cfgEx exCrate subsEx).1 ∧
    SendAction.send 2 true ∉ (notifyTraces cfgEx exCrate subsEx).2 := by
  refine ⟨by decide, by decide, by decide⟩

/-- C5 (amended): every broadcast send of notify is performed with
notifications suppressed (disable_notification = true) and every
per-subscriber fan-out send with notifications enabled
(disable_notification = false). -/
theorem broadcast_suppressed_fanout_enabled (cfg : Config) (krate : Crate)
    (r : Except String (List Int)) (chatId : Int) (q : Bool) :
    (SendAction.send chatId q ∈ (notifyTraces cfg krate r).1 → q = true) ∧
    (SendAction.send chatId q ∈ (notifyTraces cfg krate r).2 → q = false) := by
  constructor
  · intro hmem
    unfold notifyTraces channelTrace at hmem
    cases hc : cfg.channel with
    | none => rw [hc] at hmem; exact absurd hmem (List.not_mem_nil _)
    | some cid =>
      rw [hc] at hmem
      by_cases hb : krate.id.name ∈ cfg.ban.crates
      · simp [hb] at hmem
      · simp [hb] at hmem
        exact hmem.2
  · intro hmem
    exact usersSends_quiet_false (resolveSubs r) chatId q hmem

/-- C5 witness: the amended polarity evaluated at the concrete
configuration — the broadcast antecedent holds with quiet = true and
the fan-out antecedent with quiet = false. -/
theorem broadcast_suppressed_fanout_enabled_witness :
    (true = true) ∧ (false = false) :=
  ⟨(broadcast_suppressed_fanout_enabled cfgEx exCrate subsEx 1 true).1 (by decide),
   (broadcast_suppressed_fanout_enabled cfgEx exCrate subsEx 2 false).2 (by decide)⟩

/-- C6: an event for a crate on the ban list produces no broadcast
send at all, while every subscriber returned by the lookup still gets
its individual send for the same event. -/
theorem banned_crate_no_broadcast (cfg : Config) (krate : Crate)
    (r : Except String (List Int)) (h : krate.id.name ∈ cfg.ban.crates) :
    (notifyTraces cfg krate r).1 = [] ∧
    ∀ u ∈ resolveSubs r, SendAction.send u false ∈ (notifyTraces cfg krate r).2 := by
  constructor
  · cases hc : cfg.channel <;> simp [notifyTraces, channelTrace, h, hc]
  · intro u hu
    exact usersSends_mem (resolveSubs r) u hu

/-- C6 witness: the banned crate foo gets no broadcast while its one
subscriber is still served. -/
theorem banned_crate_no_broadcast_witness :
    (notifyTraces cfgBan fooCrate subsEx).1 = [] ∧
    ∀ u ∈ resolveSubs subsEx,
      SendAction.send u false ∈ (notifyTraces cfgBan fooCrate subsEx).2 :=
  banned_crate_no_broadcast cfgBan fooCrate subsEx (by decide)

/-- C7: the per-destination send is determined by at most 5 attempt
outcomes; it returns Ok on the first successful attempt, returns the
last (fifth) error when all five attempts fail; a fully failed send is
logged by notify_inner instead of propagating; and the fan-out loop
sends to every subscriber regardless. -/
theorem tryn_retry_contract :
    (∀ (f g : Nat → Except String Unit), (∀ k, k < 5 → f k = g k) →
      tryn 5 f = tryn 5 g) ∧
    (∀ (f : Nat → Except String Unit) (k : Nat), k < 5 → f k = .ok () →
      (∀ j, j < k → ∃ e, f j = .error e) → tryn 5 f = .ok ()) ∧
    (∀ (f : Nat → Except String Unit), (∀ k, k < 5 → ∃ e, f k = .error e) →
      tryn 5 f = f 4) ∧
    (∀ (f : Nat → Except String Unit) (e : String), tryn 5 f = .error e →
      notify_inner f = some e) ∧
    (∀ (subs : List Int) (u : Int), u ∈ subs →
      SendAction.send u false ∈ usersSends subs) := by
  refine ⟨?_, ?_, ?_, ?_, ?_⟩
  · intro f g h
    exact trynAux_congr f g 4 0 fun k hk1 hk2 => h k (by omega)
  · intro f k hk hok hprev
    interval_cases k
    · simp [tryn, trynAux, hok]
    · obtain ⟨e0, h0⟩ := hprev 0 (by omega)
      simp [tryn, trynAux, h0, hok]
    · obtain ⟨e0, h0⟩ := hprev 0 (by omega)
      obtain ⟨e1, h1⟩ := hprev 1 (by omega)
      simp [tryn, trynAux, h0, h1, hok]
    · obtain ⟨e0, h0⟩ := hprev 0 (by omega)
      obtain ⟨e1, h1⟩ := hprev 1 (by omega)
      obtain ⟨e2, h2⟩ := hprev 2 (by omega)
      simp [tryn, trynAux, h0, h1, h2, hok]
    · obtain ⟨e0, h0⟩ := hprev 0 (by omega)
      obtain ⟨e1, h1⟩ := hprev 1 (by omega)
      obtain ⟨e2, h2⟩ := hprev 2 (by omega)
      obtain ⟨e3, h3⟩ := hprev 3 (by omega)
      simp [tryn, trynAux, h0, h1, h2, h3, hok]
  · intro f h
    obtain ⟨e0, h0⟩ := h 0 (by omega)
    obtain ⟨e1, h1⟩ := h 1 (by omega)
    obtain ⟨e2, h2⟩ := h 2 (by omega)
    obtain ⟨e3, h3⟩ := h 3 (by omega)
    simp [tryn, trynAux, h0, h1, h2, h3]
  · intro f e h
    simp [notify_inner, h]
  · intro subs u hu
    exact usersSends_mem subs u hu

/-- C7 witness: the retry contract evaluated on a transport that
succeeds at the second attempt and on one that always fails. -/
theorem tryn_retry_contract_witness :
    tryn 5 fAllW = tryn 5 fAllW ∧
    tryn 5 fOkW = .ok () ∧
    tryn 5 fAllW = fAllW 4 ∧
    notify_inner fAllW = some "e" ∧
    SendAction.send 2 false ∈ usersSends [2] :=
  ⟨tryn_retry_contract.1 fAllW fAllW fun _ _ => rfl,
   tryn_retry_contract.2.1 fOkW 1 (by omega) rfl
     (fun j hj => ⟨"e", by interval_cases j; rfl⟩),
   tryn_retry_contract.2.2.1 fAllW fun k _ => ⟨"e", rfl⟩,
   tryn_retry_contract.2.2.2.1 fAllW "e" rfl,
   tryn_retry_contract.2.2.2.2 [2] 2 (by decide)⟩

/-- C10: the fan-out flow performs the inter-subscriber delay after
every subscriber send, including the last one: N subscribers yield
exactly N sleeps and the flow's trace ends with a sleep. -/
theorem fanout_delay_after_every_send (r : Except String (List Int))
    (h : resolveSubs r ≠ []) :
    countSleeps (usersTrace r) = (resolveSubs r).length ∧
    (usersTrace r).getLast? = some SendAction.sleep :=
  ⟨countSleeps_usersSends (resolveSubs r), usersSends_last (resolveSubs r) h⟩

/-- C10 witness: one subscriber yields exactly one sleep, placed after
the send. -/
theorem fanout_delay_after_every_send_witness :
    countSleeps (usersTrace subsEx) = (resolveSubs subsEx).length ∧
    (usersTrace subsEx).getLast? = some SendAction.sleep :=
  fanout_delay_after_every_send subsEx (by decide)

/-! The invariant of the pull/notify transition system. -/

theorem inv_init : Inv initSt := by
  simp [Inv, initSt, ackedBound, procList]

theorem inv_step {P : List PairInfo} {s s' : St} (hs : Step P s s') (h : Inv s) : Inv s' := by
  obtain ⟨h1, h2, h3, h4, h5, h6⟩ := h
  cases hs with
  | skip hi hr ha =>
    refine ⟨?_, ?_, ?_, ?_, ?_, ?_⟩ <;> dsimp only
    · exact h1
    · exact h2
    · exact h3
    · exact h4
    · intro hw; rw [hr] at hw; exact absurd hw (by decide)
    · intro _ j hj; exact Nat.lt_succ_of_lt (h6 (by rw [hr]; decide) j hj)
  | send hi hr hb hok hlen =>
    have hnw : s.phase ≠ PPhase.waiting := by rw [hr]; decide
    have hlt : ∀ j ∈ s.produced, j < s.i := h6 hnw
    refine ⟨?_, ?_, ?_, ?_, ?_, ?_⟩ <;> dsimp only
    · exact h1
    · rw [h2, List.append_assoc]
    · exact h3
    · refine List.pairwise_append.mpr ⟨h4, ?_, ?_⟩
      · exact List.pairwise_singleton _ _
      · intro a ha b hb'
        rw [List.mem_singleton.mp hb']
        exact hlt a ha
    · intro _
      refine ⟨lastConcat s.i s.produced, ?_⟩
      intro j hj
      rcases List.mem_append.mp hj with hj | hj
      · exact Nat.le_of_lt (hlt j hj)
      · exact le_of_eq (List.mem_singleton.mp hj)
    · intro hw; exact absurd rfl hw
  | fail hi hr hb hnok =>
    have hnw : s.phase ≠ PPhase.waiting := by rw [hr]; decide
    refine ⟨?_, ?_, ?_, ?_, ?_, ?_⟩ <;> dsimp only
    · exact h1
    · exact h2
    · exact h3
    · exact h4
    · intro hw; exact absurd hw (by decide)
    · intro _; exact h6 hnw
  | finish hr hge =>
    have hnw : s.phase ≠ PPhase.waiting := by rw [hr]; decide
    refine ⟨?_, ?_, ?_, ?_, ?_, ?_⟩ <;> dsimp only
    · exact h1
    · exact h2
    · exact h3
    · exact h4
    · intro hw; exact absurd hw (by decide)
    · intro _; exact h6 hnw
  | advance hw hm =>
    obtain ⟨hl, hle⟩ := h5 hw
    have hdecomp : s.produced = s.acked ++ (procList s.cphase ++ s.chan) := by
      rw [h2, h3, List.append_assoc]
    have hcross : ∀ a ∈ s.acked, ∀ b ∈ procList s.cphase ++ s.chan, a < b :=
      (List.pairwise_append.mp (hdecomp ▸ h4)).2.2
    have hempty : procList s.cphase ++ s.chan = [] := by
      rw [List.eq_nil_iff_forall_not_mem]
      intro b hb
      have hib : s.i < b := hcross s.i hm b hb
      have hbi : b ≤ s.i := hle b (by rw [hdecomp]; exact List.mem_append_right _ hb)
      omega
    have hpa : s.produced = s.acked := by rw [hdecomp, hempty, List.append_nil]
    have hab : ackedBound s.acked = s.i + 1 := by
      unfold ackedBound
      rw [← hpa, hl]
    refine ⟨?_, ?_, ?_, ?_, ?_, ?_⟩ <;> dsimp only
    · rw [hab]
    · exact h2
    · exact h3
    · exact h4
    · intro hw'; exact absurd hw' (by decide)
    · intro _ j hj; exact Nat.lt_succ_of_le (hle j hj)
  | recv j rest hcp hch =>
    refine ⟨?_, ?_, ?_, ?_, ?_, ?_⟩ <;> dsimp only
    · exact h1
    · rw [h2, hch]; simp
    · rw [h3, hcp]; simp [procList]
    · exact h4
    · exact h5
    · exact h6
  | release j hcp =>
    have hconsumed : s.consumed = s.acked ++ [j] := by
      rw [h3, hcp]
      simp [procList]
    have hpair : List.Pairwise (· < ·) (s.acked ++ [j]) := by
      have hp : s.produced = (s.acked ++ [j]) ++ s.chan := by
        rw [h2, hconsumed]
      exact (List.pairwise_append.mp (hp ▸ h4)).1
    have hbound : ackedBound (s.acked ++ [j]) = j + 1 := by
      unfold ackedBound
      rw [lastConcat]
    have hle : ackedBound s.acked ≤ j + 1 := by
      cases hgl : s.acked.getLast? with
      | none =>
        have hz : ackedBound s.acked = 0 := by unfold ackedBound; rw [hgl]
        omega
      | some a =>
        have ham : a ∈ s.acked := lastMem s.acked a hgl
        have haj : a < j :=
          (List.pairwise_append.mp hpair).2.2 a ham j (List.mem_singleton_self j)
        have hz : ackedBound s.acked = a + 1 := by unfold ackedBound; rw [hgl]
        omega
    refine ⟨?_, ?_, ?_, ?_, ?_, ?_⟩ <;> dsimp only
    · rw [hbound]; exact le_trans h1 hle
    · exact h2
    · rw [hconsumed]; simp [procList]
    · exact h4
    · exact h5
    · exact h6

theorem reachable_inv {P : List PairInfo} {s : St} (h : Reachable P s) : Inv s := by
  induction h with
  | refl => exact inv_init
  | tail _ hstep ih => exact inv_step hstep ih

/-! Concrete four-step run used by the C1 and C8 witnesses. -/

theorem exStep01 : Step exPairs initSt exS1 :=
  Step.send initSt (by decide) rfl rfl (by decide) (by decide)

theorem exStep12 : Step exPairs exS1 exS2 :=
  Step.recv exS1 0 [] rfl rfl

theorem exStep23 : Step exPairs exS2 exS3 :=
  Step.release exS2 0 rfl

theorem exStep34 : Step exPairs exS3 exS4 :=
  Step.advance exS3 rfl (by decide)

theorem exReach4 : Reachable exPairs exS4 :=
  Relation.ReflTransGen.tail
    (Relation.ReflTransGen.tail
      (Relation.ReflTransGen.tail
        (Relation.ReflTransGen.tail Relation.ReflTransGen.refl exStep01)
        exStep12)
      exStep23)
    exStep34

/-- C1: at every reachable state of the pull/notify system the cursor
has not advanced past the pair of the last acknowledged event (the
bound is that pair's next-commit position, 0 before any
acknowledgement), and whenever the producer is blocked waiting on an
acknowledgement that has been released, the fast-forward step
advancing the cursor to that pair's next commit is enabled. -/
theorem cursor_gated_by_ack (P : List PairInfo) (s : St) (h : Reachable P s) :
    s.cursor ≤ ackedBound s.acked ∧
    (s.phase = PPhase.waiting → s.i ∈ s.acked →
      Step P s { s with phase := .ready, cursor := s.i + 1, i := s.i + 1 }) :=
  ⟨(reachable_inv h).1, fun hw hm => Step.advance s hw hm⟩

/-- C1 witness: the gating property at a concrete state reached by
sending, receiving, acknowledging and fast-forwarding one event. -/
theorem cursor_gated_by_ack_witness :
    exS4.cursor ≤ ackedBound exS4.acked ∧
    (exS4.phase = PPhase.waiting → exS4.i ∈ exS4.acked →
      Step exPairs exS4
        { exS4 with phase := .ready, cursor := exS4.i + 1, i := exS4.i + 1 }) :=
  cursor_gated_by_ack exPairs exS4 exReach4

/-- C8: at every reachable state the events consumed by the notify
loop are a prefix of the events produced, in identical order, and the
produced events are in strictly increasing commit-pair order — no
event is consumed out of order relative to the commit history; and the
pairs of one cycle are the consecutive windows of the walk output, so
their next components are exactly the commits strictly after the
checked-out commit, oldest first. -/
theorem events_fifo_and_range :
    (∀ (P : List PairInfo) (s : St), Reachable P s →
      (∃ suffix, s.consumed ++ suffix = s.produced) ∧
      List.Pairwise (· < ·) s.produced) ∧
    (∀ (c : CommitInfo) (rest : List CommitInfo),
      (commitWindows (c :: rest)).map Prod.snd = rest) := by
  constructor
  · intro P s h
    obtain ⟨_, h2, _, h4, _, _⟩ := reachable_inv h
    exact ⟨⟨s.chan, h2.symm⟩, h4⟩
  · intro c rest
    exact mapSnd_zip_shift rest c

/-- C8 witness: the FIFO prefix at a concrete reachable state and the
window enumeration of a concrete two-commit walk. -/
theorem events_fifo_and_range_witness :
    ((∃ suffix, exS4.consumed ++ suffix = exS4.produced) ∧
      List.Pairwise (· < ·) exS4.produced) ∧
    (commitWindows [exBors, exAlice]).map Prod.snd = [exAlice] :=
  ⟨events_fifo_and_range.1 exPairs exS4 exReach4,
   events_fifo_and_range.2 exBors [exAlice]⟩

end CrateUpdBot
